import Mathlib

/-!
Verification of the evidence-retrieval and confidence-scoring core of the
`human_annotation_langraph_agent` repository.

The Python sources are shallowly embedded:

* numeric quantities computed by pure rational arithmetic in the sources
  (confidence scoring, frequency weighting, recency boosting) are modelled
  over `ℚ`;
* cosine similarity and the in-memory vector store, whose arithmetic uses
  square roots, are modelled over `ℝ`;
* strings manipulated character-by-character (asset URIs) are modelled as
  `List Char`, since the model must evaluate on concrete inputs;
* Python's in-place mutation of the LangGraph state is modelled by explicit
  state passing; an exception caught by a node's `try`/`except` wrapper is
  modelled by the node returning the state with the error recorded;
* wall-clock telemetry (`time_ms`) is not representable and is omitted; a
  stage's telemetry entry is modelled as its key together with the error
  message it records (`none` for a success entry).
-/

namespace Agent

/-! ## Configuration defaults (src/config.py, class Settings) -/

namespace settings

/-- `rag_top_k` default (config.py). -/
def rag_top_k : ℕ := 3

/-- `feedback_top_k` default (config.py). -/
def feedback_top_k : ℕ := 5

/-- `similarity_threshold` default 0.70 (config.py). -/
def similarity_threshold : ℚ := 7/10

/-- `confidence_high_threshold` default 0.85 (config.py). -/
def confidence_high_threshold : ℚ := 17/20

/-- `confidence_medium_threshold` default 0.70 (config.py). -/
def confidence_medium_threshold : ℚ := 7/10

/-- `confidence_low_threshold` default 0.50 (config.py). -/
def confidence_low_threshold : ℚ := 1/2

/-- `frequency_boost_factor` default 0.15 (config.py). -/
def frequency_boost_factor : ℚ := 3/20

/-- `recency_weight` default 0.1 (config.py). -/
def recency_weight : ℚ := 1/10

end settings

/-! ## Data model fragments (src/storage/schemas.py)

Only the fields read or written by the modelled nodes are kept; embedding
vectors and free-text payloads that the scoring logic never inspects are
omitted. -/

/-- `agent_decision` literal values (schemas.py, `DecisionFeedback.agent_decision`). -/
inductive Decision
  | inScope
  | outOfScope
  | insufficientData
  deriving DecidableEq, Repr

/-- `rating` literal values (schemas.py, `DecisionFeedback.rating`). -/
inductive Rating
  | up
  | down
  deriving DecidableEq, Repr

/-- The two fields of a retrieved feedback record that
`assess_confidence_node` reads (`f.agent_decision`, `f.rating`). -/
structure FeedbackItem where
  agent_decision : Decision
  rating : Rating
  deriving DecidableEq, Repr

/-- `RAGContext` (schemas.py): summary of the RAG retrieval stage. -/
structure RAGContext where
  chunks_retrieved : ℕ
  chunk_ids : List String
  avg_similarity : ℚ
  top_similarity : ℚ
  deriving DecidableEq, Repr

/-- `FeedbackContext` (schemas.py): summary of the feedback retrieval stage. -/
structure FeedbackContext where
  total_feedback_count : ℕ
  retrieved_count : ℕ
  avg_similarity : ℚ
  frequency_clusters : ℕ
  deriving DecidableEq, Repr

/-- `level` literal values of `ConfidenceAssessment` (schemas.py). -/
inductive ConfidenceLevel
  | high
  | medium
  | low
  | insufficient
  deriving DecidableEq, Repr

/-- `ConfidenceAssessment` (schemas.py lines 100-110).  The Pydantic model
constrains `score` by `Field(..., ge=0.0, le=1.0)`; constructing it with a
score outside `[0, 1]` raises a `ValidationError`.  The free-text `factors`
map and `reasoning` string are omitted. -/
structure ConfidenceAssessment where
  level : ConfidenceLevel
  score : ℚ
  deriving DecidableEq, Repr

/-! ## Confidence scoring (src/agent/nodes/assess_confidence.py) -/

/-- Factor 1 of `assess_confidence_node` (lines 30-41): RAG context quality.
`rag_score = min(0.4, avg_similarity * 0.5)` when at least one chunk was
retrieved, else `0.0`; `0.0` when no RAG context is present. -/
def rag_score (rc : Option RAGContext) : ℚ :=
  match rc with
  | none => 0
  | some r => if 0 < r.chunks_retrieved then min (2/5) (r.avg_similarity * (1/2)) else 0

/-- Factor 2 of `assess_confidence_node` (lines 43-65): feedback count and
quality.  Base `avg_similarity * 0.2` plus a quantity bonus of `0.15` for at
least 3 retrieved items, `0.1` for 2, `0.05` for 1; `0.0` when no feedback
context is present or nothing was retrieved. -/
def feedback_score (fc : Option FeedbackContext) : ℚ :=
  match fc with
  | none => 0
  | some f =>
      if 0 < f.retrieved_count then
        f.avg_similarity * (1/5) +
          (if 3 ≤ f.retrieved_count then 3/20
           else if 2 ≤ f.retrieved_count then 1/10
           else 1/20)
      else 0

/-- `len(set(decisions))` of `assess_confidence_node` line 75: number of
distinct `agent_decision` values among the retrieved feedback. -/
def distinct_decision_count (l : List FeedbackItem) : ℕ :=
  (l.map (fun f => f.agent_decision)).dedup.length

/-- `ratings.count("down")` (line 86). -/
def down_count (l : List FeedbackItem) : ℕ :=
  (l.filter (fun f => decide (f.rating = Rating.down))).length

/-- Factor 3 of `assess_confidence_node` (lines 67-95): feedback agreement.
One distinct prior decision scores `0.2`, two score `0.1`, more score `0.0`;
an empty feedback list scores `0.0`.  When the thumbs-down ratio exceeds
`0.5` the score is multiplied by `0.5`. -/
def agreement_score (l : List FeedbackItem) : ℚ :=
  if l = [] then 0
  else
    let base : ℚ :=
      if distinct_decision_count l = 1 then 1/5
      else if distinct_decision_count l = 2 then 1/10
      else 0
    if 1/2 < (down_count l : ℚ) / (l.length : ℚ) then base * (1/2) else base

/-- `confidence_score = sum(score_components)` (line 98) as a function of the
three inputs the node reads from the run state. -/
def confidence_score_of (rc : Option RAGContext) (fc : Option FeedbackContext)
    (l : List FeedbackItem) : ℚ :=
  rag_score rc + feedback_score fc + agreement_score l

/-- Level mapping of `assess_confidence_node` lines 100-108 with the default
thresholds from config.py. -/
def confidence_level (x : ℚ) : ConfidenceLevel :=
  if settings.confidence_high_threshold ≤ x then ConfidenceLevel.high
  else if settings.confidence_medium_threshold ≤ x then ConfidenceLevel.medium
  else if settings.confidence_low_threshold ≤ x then ConfidenceLevel.low
  else ConfidenceLevel.insufficient

/-! ## Frequency weighting (src/feedback/processor.py, retrieve_similar_feedback) -/

/-- One entry of the `similar_feedback` dict list built by
`FeedbackProcessor.retrieve_similar_feedback` (processor.py lines 69-83);
only the fields the weighting step reads are kept. -/
structure FeedbackEntry where
  feedback_id : String
  commitment_id : String
  decision : Decision
  rating : Rating
  similarity : ℚ
  deriving DecidableEq, Repr

/-- The clustering key `(fb["commitment_id"], fb["decision"])`
(processor.py line 89). -/
def cluster_key (fb : FeedbackEntry) : String × Decision :=
  (fb.commitment_id, fb.decision)

/-- `cluster_size = len(cluster_items)` (processor.py line 94): the number of
retrieved candidates sharing an item's cluster key. -/
def cluster_size (l : List FeedbackEntry) (fb : FeedbackEntry) : ℕ :=
  (l.filter (fun g => decide (cluster_key g = cluster_key fb))).length

/-- `fb["frequency_weight"] = 1.0 + (cluster_size - 1) * frequency_boost_factor`
(processor.py lines 97-98). -/
def frequency_weight (factor : ℚ) (n : ℕ) : ℚ :=
  1 + ((n : ℚ) - 1) * factor

/-- The weight-annotation step of `retrieve_similar_feedback` (processor.py
lines 85-99): every retrieved item is annotated with its frequency weight and
cluster size. -/
def with_frequency_weights (factor : ℚ) (l : List FeedbackEntry) :
    List (FeedbackEntry × ℚ × ℕ) :=
  l.map (fun fb => (fb, frequency_weight factor (cluster_size l fb), cluster_size l fb))

/-! ## Recency boost (src/agent/nodes/retrieve_feedback.py lines 89-93) -/

/-- `recency_boost = max(0, recency_weight * (1 - days_old / 365))`
(retrieve_feedback.py line 91). -/
def recency_boost (w : ℚ) (days_old : ℤ) : ℚ :=
  max 0 (w * (1 - (days_old : ℚ) / 365))

/-! ## Asset URI parsing (src/storage/schemas.py, AssetURI.from_uri)

Strings are modelled as `List Char` so that parsing evaluates on concrete
inputs; error messages are built as `String`s (the surrounding quotes of the
Python messages are elided). -/

/-- The scheme marker `"asset://"`. -/
def scheme : List Char := "asset://".toList

/-- Python's `str.startswith` on character lists. -/
def starts_with : List Char → List Char → Bool
  | [], _ => true
  | _ :: _, [] => false
  | p :: ps, c :: cs => p == c && starts_with ps cs

/-- Python's `str.replace(pat, "")`: delete every (non-overlapping,
left-to-right) occurrence of `pat`.  The `pat ≠ []` guard only rules out the
empty pattern, which the source never uses. -/
def remove_all (pat : List Char) : List Char → List Char
  | [] => []
  | c :: cs =>
      if h : pat ≠ [] ∧ starts_with pat (c :: cs) then
        remove_all pat ((c :: cs).drop pat.length)
      else
        c :: remove_all pat cs
  termination_by l => l.length
  decreasing_by
    · have hp : 1 ≤ pat.length := by
        cases pat with
        | nil => exact absurd rfl h.1
        | cons p ps => simp
      simp only [List.length_drop, List.length_cons]
      omega
    · simp

/-- Python's `str.split(".")`: split at every dot, keeping empty segments. -/
def split_on_dot : List Char → List (List Char)
  | [] => [[]]
  | c :: cs =>
      match split_on_dot cs with
      | [] => [[]]
      | seg :: rest => if c = '.' then [] :: seg :: rest else (c :: seg) :: rest

/-- `AssetURI` (schemas.py lines 13-19). -/
structure AssetURI where
  raw_uri : List Char
  asset_type : List Char
  asset_descriptor : List Char
  asset_domain : List Char
  deriving DecidableEq, Repr

/-- `AssetURI.from_uri` (schemas.py lines 21-40): reject a URI without the
`asset://` scheme marker; strip every occurrence of the marker; split the
remainder on dots; reject unless exactly three parts remain. -/
def AssetURI.from_uri (uri : List Char) : Except String AssetURI :=
  if !starts_with scheme uri then
    Except.error ("Invalid asset URI format: " ++ String.mk uri ++
      ". Expected asset://type.descriptor.domain")
  else
    match split_on_dot (remove_all scheme uri) with
    | [t, d, dom] => Except.ok ⟨uri, t, d, dom⟩
    | _ =>
        Except.error ("Invalid asset URI format: " ++ String.mk uri ++
          ". Expected exactly 3 parts: type.descriptor.domain")

/-! ## Run state and pipeline nodes (src/storage/schemas.py AgentState,
src/agent/nodes/parse_asset.py, src/agent/nodes/assess_confidence.py,
src/agent/graph.py) -/

/-- `AgentState` (schemas.py lines 247-298), narrowed to the fields read or
written by the modelled nodes.  `telemetry_data` keeps, per stage key, the
error message the stage recorded (`none` for a success entry); the wall-clock
`time_ms` values and stage-specific diagnostic payloads are omitted. -/
structure AgentState where
  asset_uri : List Char
  asset : Option AssetURI := none
  rag_context : Option RAGContext := none
  feedback_context : Option FeedbackContext := none
  similar_feedback : List FeedbackItem := []
  confidence : Option ConfidenceAssessment := none
  errors : List String := []
  telemetry_data : List (String × Option String) := []
  deriving DecidableEq, Repr

/-- Python dict assignment `state.telemetry_data[key] = value`: upsert into
an insertion-ordered association list. -/
def set_telemetry (t : List (String × Option String)) (k : String)
    (v : Option String) : List (String × Option String) :=
  if t.any (fun p => p.1 == k) then
    t.map (fun p => if p.1 == k then (k, v) else p)
  else
    t ++ [(k, v)]

/-- `parse_asset_node` (parse_asset.py): parse the asset URI; on success store
the parsed asset, on a `ValueError` append `"Asset parsing error: ..."` to the
error list and record an error telemetry entry. -/
def parse_asset_node (s : AgentState) : AgentState :=
  match AssetURI.from_uri s.asset_uri with
  | Except.ok a =>
      { s with
        asset := some a
        telemetry_data := set_telemetry s.telemetry_data "parse_asset" none }
  | Except.error m =>
      { s with
        errors := s.errors ++ ["Asset parsing error: " ++ m]
        telemetry_data := set_telemetry s.telemetry_data "parse_asset" (some m) }

/-- The error message recorded by `assess_confidence_node`'s `except` branch.
In the source the message renders the Pydantic `ValidationError` raised when
`ConfidenceAssessment` is constructed with a score outside `[0, 1]`; the
rendered text is abbreviated here. -/
def confidence_validation_message : String :=
  "Confidence assessment error: score outside the range 0 to 1"

/-- `assess_confidence_node` (assess_confidence.py): compute the three score
components and their sum, and construct the `ConfidenceAssessment`.  The only
statement in the `try` body that can raise is the Pydantic construction
(schemas.py constrains `score` by `ge=0.0, le=1.0`), so the `except` branch
runs exactly when the computed score is outside `[0, 1]`; it appends the
error message and records an error telemetry entry, leaving the rest of the
state as it was. -/
def assess_confidence_node (s : AgentState) : AgentState :=
  let score := confidence_score_of s.rag_context s.feedback_context s.similar_feedback
  if 0 ≤ score ∧ score ≤ 1 then
    { s with
      confidence := some ⟨confidence_level score, score⟩
      telemetry_data := set_telemetry s.telemetry_data "confidence_assessment" none }
  else
    { s with
      errors := s.errors ++ [confidence_validation_message]
      telemetry_data :=
        set_telemetry s.telemetry_data "confidence_assessment"
          (some confidence_validation_message) }

/-- The fixed, non-branching stage sequence of `create_evidencing_graph`
(graph.py lines 62-73): each stage maps the run state to the next run state
and the engine folds the state through the stages in order. -/
def run_stages (stages : List (AgentState → AgentState)) (s : AgentState) : AgentState :=
  stages.foldl (fun t f => f t) s

/-- A stage that only ever appends to the shared error list (the fail-soft
propagation policy every node of src/agent/nodes follows). -/
def errors_monotone (f : AgentState → AgentState) : Prop :=
  ∀ s : AgentState, ∃ tail, (f s).errors = s.errors ++ tail

/-! ## Cosine similarity (src/storage/embeddings.py,
src/storage/vector_store/in_memory.py)

Embedding vectors are modelled as `List ℝ`; `numpy` floating-point dot
products and norms become exact real arithmetic. -/

/-- `np.dot(vec1, vec2)` on vectors given as lists. -/
def dot (v w : List ℝ) : ℝ :=
  (List.zipWith (fun a b => a * b) v w).sum

/-- `np.linalg.norm(vec)`: the Euclidean norm. -/
noncomputable def vec_norm (v : List ℝ) : ℝ :=
  Real.sqrt (dot v v)

/-- `EmbeddingService.cosine_similarity` (embeddings.py lines 26-38): the
dot product divided by the product of the norms, with a guard returning
`0.0` when either norm is zero. -/
noncomputable def cosine_similarity (v w : List ℝ) : ℝ :=
  if vec_norm v = 0 ∨ vec_norm w = 0 then 0
  else dot v w / (vec_norm v * vec_norm w)

/-- `InMemoryVectorStore._cosine_similarity` (in_memory.py lines 28-39):
computed the same way as the embedding-service version. -/
noncomputable def inmem_cosine_similarity (v w : List ℝ) : ℝ :=
  if vec_norm v = 0 ∨ vec_norm w = 0 then 0
  else dot v w / (vec_norm v * vec_norm w)

/-! ## Stable descending sort

Python's `list.sort(key=..., reverse=True)` is a stable sort: the output is
non-increasing in the key and elements with equal keys keep their input
order.  A stable sort is extensionally unique for a total preorder, so it is
modelled by the stable insertion sort below. -/

section StableSort

variable {α : Type} (key : α → ℝ)

/-- Insert `x` into a sorted-descending list built from elements that
followed `x` in the input: skip the strictly larger keys, then place `x`
before any element of equal or smaller key. -/
noncomputable def insert_desc (x : α) : List α → List α
  | [] => [x]
  | y :: ys => if key x < key y then y :: insert_desc x ys else x :: y :: ys

/-- Stable sort by non-increasing key. -/
noncomputable def sort_desc : List α → List α
  | [] => []
  | x :: xs => insert_desc key x (sort_desc xs)

end StableSort

/-! ## In-memory vector store search (src/storage/vector_store/in_memory.py) -/

/-- `VectorDocument` (vector_store/base.py): id, text, embedding, metadata.
Metadata is a string-keyed dict of string values, modelled as an association
list. -/
structure VectorDocument where
  id : String
  text : String
  embedding : List ℝ
  metadata : List (String × String)

/-- `SimilarityResult` (vector_store/base.py): the unit returned by search. -/
structure SimilarityResult where
  id : String
  text : String
  score : ℝ
  metadata : List (String × String)

/-- `InMemoryVectorStore._matches_filter` (in_memory.py lines 41-46):
exact-match conjunction over the filter's key/value pairs. -/
def matches_filter (md filt : List (String × String)) : Bool :=
  filt.all (fun kv => md.lookup kv.1 == some kv.2)

/-- The candidate-filtering clause of `search` (in_memory.py lines 56-61):
`if filter_metadata and not self._matches_filter(...): continue`.  An absent
filter is `none`; an empty dict is falsy in Python, but it also matches every
document, so both readings keep every document. -/
def passes_metadata_filter (filt : Option (List (String × String)))
    (md : List (String × String)) : Bool :=
  match filt with
  | none => true
  | some f => matches_filter md f

/-- The threshold clause of `search` (in_memory.py line 69):
`if score_threshold and score < score_threshold: continue`.  A threshold of
`0.0` is falsy in Python, so the clause drops a candidate only when the
threshold is present, nonzero, and strictly above the score. -/
noncomputable def dropped_by_threshold (thr : Option ℝ) (score : ℝ) : Bool :=
  match thr with
  | none => false
  | some c => decide (c ≠ 0) && decide (score < c)

/-- The scored candidate list of `search` (in_memory.py lines 56-72), in
store insertion order: documents passing the metadata filter, paired with
their cosine similarity to the query, with the threshold clause applied. -/
noncomputable def search_candidates (store : List VectorDocument) (q : List ℝ)
    (filt : Option (List (String × String))) (thr : Option ℝ) :
    List (VectorDocument × ℝ) :=
  ((store.filter (fun d => passes_metadata_filter filt d.metadata)).map
      (fun d => (d, inmem_cosine_similarity q d.embedding))).filter
    (fun p => !dropped_by_threshold thr p.2)

/-- The result-construction step of `search` (in_memory.py lines 81-89):
package a document/score pair as a `SimilarityResult`. -/
def to_result (p : VectorDocument × ℝ) : SimilarityResult :=
  ⟨p.1.id, p.1.text, p.2, p.1.metadata⟩

/-- `InMemoryVectorStore.search` (in_memory.py lines 48-89): sort the scored
candidates by score descending (a stable Python sort), take the first
`top_k`, and package each pair as a `SimilarityResult`.  The store is the
dict's value list in insertion order. -/
noncomputable def search (store : List VectorDocument) (q : List ℝ) (top_k : ℕ)
    (filt : Option (List (String × String))) (thr : Option ℝ) :
    List SimilarityResult :=
  ((sort_desc (fun p => p.2) (search_candidates store q filt thr)).take top_k).map
    to_result

/-- `InMemoryVectorStore.add_documents` (in_memory.py lines 23-26): upsert by
document id into an insertion-ordered store; a re-added id replaces the
stored document in place, a new id is appended. -/
def add_documents (store docs : List VectorDocument) : List VectorDocument :=
  docs.foldl
    (fun st d =>
      if st.any (fun e => e.id == d.id) then
        st.map (fun e => if e.id == d.id then d else e)
      else
        st ++ [d])
    store

/-! ## Parsing lemmas: splitting on dots and stripping the scheme marker -/

lemma starts_with_iff (p l : List Char) :
    starts_with p l = true ↔ ∃ r, l = p ++ r := by
  induction p generalizing l with
  | nil => simp [starts_with]
  | cons a as ih =>
      cases l with
      | nil => simp [starts_with]
      | cons c cs =>
          simp only [starts_with, Bool.and_eq_true, beq_iff_eq, ih, List.cons_append,
            List.cons.injEq]
          constructor
          · rintro ⟨h1, r, h2⟩
            exact ⟨r, h1.symm, h2⟩
          · rintro ⟨r, h1, h2⟩
            exact ⟨h1.symm, r, h2⟩

lemma split_on_dot_ne_nil (l : List Char) : split_on_dot l ≠ [] := by
  cases l with
  | nil => simp [split_on_dot]
  | cons c cs =>
      simp only [split_on_dot]
      cases h : split_on_dot cs with
      | nil => simp
      | cons seg rest => by_cases hc : c = '.' <;> simp [hc]

lemma split_on_dot_length (l : List Char) :
    (split_on_dot l).length = l.count '.' + 1 := by
  induction l with
  | nil => simp [split_on_dot]
  | cons c cs ih =>
      cases h : split_on_dot cs with
      | nil => exact absurd h (split_on_dot_ne_nil cs)
      | cons seg rest =>
          have hstep : split_on_dot (c :: cs) =
              if c = '.' then [] :: seg :: rest else (c :: seg) :: rest := by
            simp only [split_on_dot, h]
          rw [h] at ih
          rw [hstep]
          by_cases hc : c = '.'
          · subst hc
            rw [if_pos rfl, List.count_cons_self]
            simp only [List.length_cons] at ih ⊢
            omega
          · rw [if_neg hc, List.count_cons_of_ne (fun e => hc e.symm)]
            simp only [List.length_cons] at ih ⊢
            omega

lemma count_eq_zero_of_not_mem {c : Char} {l : List Char} (h : c ∉ l) :
    l.count c = 0 :=
  List.count_eq_zero.2 h

lemma remove_all_count (pat : List Char) (hd : '.' ∉ pat) :
    ∀ l : List Char, (remove_all pat l).count '.' = l.count '.' := by
  have main : ∀ (n : ℕ) (l : List Char), l.length ≤ n →
      (remove_all pat l).count '.' = l.count '.' := by
    intro n
    induction n with
    | zero =>
        intro l hl
        have : l = [] := List.length_eq_zero.1 (Nat.le_zero.1 hl)
        subst this
        rw [remove_all]
    | succ n ih =>
        intro l hl
        cases l with
        | nil => rw [remove_all]
        | cons c cs =>
            rw [remove_all]
            split
            · next h =>
                obtain ⟨hne, hsw⟩ := h
                obtain ⟨r, hr⟩ := (starts_with_iff pat (c :: cs)).1 hsw
                have hplen : 1 ≤ pat.length := by
                  cases pat with
                  | nil => exact absurd rfl hne
                  | cons p ps => simp
                have hdrop : (c :: cs).drop pat.length = r := by
                  rw [hr, List.drop_left]
                have hrlen : r.length ≤ n := by
                  have hcong := congrArg List.length hr
                  simp only [List.length_cons, List.length_append] at hcong
                  simp only [List.length_cons] at hl
                  omega
                rw [hdrop, ih r hrlen, hr, List.count_append,
                  count_eq_zero_of_not_mem hd]
                omega
            · next h =>
                have hcs : cs.length ≤ n := by
                  simp only [List.length_cons] at hl
                  omega
                simp only [List.count_cons, ih cs hcs]
  intro l
  exact main l.length l le_rfl

lemma scheme_no_dot : '.' ∉ scheme := by decide

/-- When the URI carries the scheme marker, stripping every occurrence of the
marker preserves the number of dots, hence the number of dot-separated
segments, of the remainder after the marker. -/
lemma split_remove_all_length (uri r : List Char) (h : uri = scheme ++ r) :
    (split_on_dot (remove_all scheme uri)).length = (split_on_dot r).length := by
  rw [split_on_dot_length, split_on_dot_length, remove_all_count scheme scheme_no_dot,
    h, List.count_append, count_eq_zero_of_not_mem scheme_no_dot]
  omega

lemma from_uri_error_of_no_scheme (uri : List Char)
    (h : starts_with scheme uri = false) :
    AssetURI.from_uri uri =
      Except.error ("Invalid asset URI format: " ++ String.mk uri ++
        ". Expected asset://type.descriptor.domain") := by
  simp [AssetURI.from_uri, h]

lemma from_uri_error_of_bad_segments (uri : List Char)
    (hsw : starts_with scheme uri = true)
    (h3 : (split_on_dot (uri.drop scheme.length)).length ≠ 3) :
    AssetURI.from_uri uri =
      Except.error ("Invalid asset URI format: " ++ String.mk uri ++
        ". Expected exactly 3 parts: type.descriptor.domain") := by
  obtain ⟨r, hr⟩ := (starts_with_iff scheme uri).1 hsw
  have hdrop : uri.drop scheme.length = r := by rw [hr, List.drop_left]
  rw [hdrop] at h3
  have hlen : (split_on_dot (remove_all scheme uri)).length ≠ 3 := by
    rw [split_remove_all_length uri r hr]
    exact h3
  rw [AssetURI.from_uri, hsw]
  simp only [Bool.not_true, Bool.false_eq_true, if_false]
  rcases hps : split_on_dot (remove_all scheme uri) with _ | ⟨a, _ | ⟨b, _ | ⟨c, _ | ⟨d, t⟩⟩⟩⟩ <;>
    first
      | rfl
      | (exact absurd (by simp [hps]) hlen)

/-! ## Bounds on the confidence score components -/

lemma rag_score_le : ∀ rc : Option RAGContext, rag_score rc ≤ 2/5 := by
  intro rc
  cases rc with
  | none => norm_num [rag_score]
  | some r =>
      simp only [rag_score]
      split
      · exact min_le_left _ _
      · norm_num

lemma rag_score_nonneg (rc : Option RAGContext)
    (h : ∀ r, rc = some r → 0 ≤ r.avg_similarity) : 0 ≤ rag_score rc := by
  cases rc with
  | none => norm_num [rag_score]
  | some r =>
      have hr : 0 ≤ r.avg_similarity := h r rfl
      simp only [rag_score]
      split
      · exact le_min (by norm_num) (by nlinarith)
      · norm_num

lemma feedback_score_le (fc : Option FeedbackContext)
    (h : ∀ f, fc = some f → f.avg_similarity ≤ 1) : feedback_score fc ≤ 7/20 := by
  cases fc with
  | none => norm_num [feedback_score]
  | some f =>
      have hf : f.avg_similarity ≤ 1 := h f rfl
      simp only [feedback_score]
      split
      · have h1 : f.avg_similarity * (1/5) ≤ 1/5 := by nlinarith
        have h2 : (if 3 ≤ f.retrieved_count then (3:ℚ)/20
            else if 2 ≤ f.retrieved_count then 1/10 else 1/20) ≤ 3/20 := by
          split
          · norm_num
          · split <;> norm_num
        linarith
      · norm_num

lemma feedback_score_nonneg (fc : Option FeedbackContext)
    (h : ∀ f, fc = some f → 0 ≤ f.avg_similarity) : 0 ≤ feedback_score fc := by
  cases fc with
  | none => norm_num [feedback_score]
  | some f =>
      have hf : 0 ≤ f.avg_similarity := h f rfl
      simp only [feedback_score]
      split
      · have h2 : (0:ℚ) ≤ (if 3 ≤ f.retrieved_count then (3:ℚ)/20
            else if 2 ≤ f.retrieved_count then 1/10 else 1/20) := by
          split
          · norm_num
          · split <;> norm_num
        nlinarith
      · norm_num

lemma agreement_score_nonneg (l : List FeedbackItem) : 0 ≤ agreement_score l := by
  simp only [agreement_score]
  split
  · norm_num
  · have hb : (0:ℚ) ≤
        (if distinct_decision_count l = 1 then (1:ℚ)/5
         else if distinct_decision_count l = 2 then 1/10 else 0) := by
      split
      · norm_num
      · split <;> norm_num
    split
    · nlinarith
    · exact hb

lemma agreement_score_le (l : List FeedbackItem) : agreement_score l ≤ 1/5 := by
  simp only [agreement_score]
  split
  · norm_num
  · have hb : (if distinct_decision_count l = 1 then (1:ℚ)/5
         else if distinct_decision_count l = 2 then 1/10 else 0) ≤ 1/5 := by
      split
      · norm_num
      · split <;> norm_num
    have hb0 : (0:ℚ) ≤
        (if distinct_decision_count l = 1 then (1:ℚ)/5
         else if distinct_decision_count l = 2 then 1/10 else 0) := by
      split
      · norm_num
      · split <;> norm_num
    split
    · nlinarith
    · exact hb

/-- C1 (amended): the confidence total is in `[0, 1]` whenever the average
similarities carried by the run state are non-negative (and the feedback
average is at most `1`); the stage then produces a `ConfidenceAssessment`
carrying exactly that total.  (The unamended claim, quantifying over negative
average similarities as well, is refuted by
`confidence_score_negative_counterexample`.) -/
theorem assess_confidence_score_in_range (s : AgentState)
    (hr : ∀ r, s.rag_context = some r → 0 ≤ r.avg_similarity)
    (hf : ∀ f, s.feedback_context = some f →
      0 ≤ f.avg_similarity ∧ f.avg_similarity ≤ 1) :
    0 ≤ confidence_score_of s.rag_context s.feedback_context s.similar_feedback ∧
    confidence_score_of s.rag_context s.feedback_context s.similar_feedback ≤ 1 ∧
    (assess_confidence_node s).confidence =
      some ⟨confidence_level
          (confidence_score_of s.rag_context s.feedback_context s.similar_feedback),
        confidence_score_of s.rag_context s.feedback_context s.similar_feedback⟩ := by
  have h1 := rag_score_nonneg s.rag_context hr
  have h2 := rag_score_le s.rag_context
  have h3 := feedback_score_nonneg s.feedback_context (fun f hf0 => (hf f hf0).1)
  have h4 := feedback_score_le s.feedback_context (fun f hf0 => (hf f hf0).2)
  have h5 := agreement_score_nonneg s.similar_feedback
  have h6 := agreement_score_le s.similar_feedback
  have hlo : 0 ≤ confidence_score_of s.rag_context s.feedback_context s.similar_feedback := by
    simp only [confidence_score_of]; linarith
  have hhi : confidence_score_of s.rag_context s.feedback_context s.similar_feedback ≤ 1 := by
    simp only [confidence_score_of]; linarith
  refine ⟨hlo, hhi, ?_⟩
  simp only [assess_confidence_node, if_pos (And.intro hlo hhi)]

/-- C1 counterexample: with one retrieved chunk of average similarity `-1`
and no feedback, the computed total is `-1/2`, outside `[0, 1]`; the Pydantic
validation then rejects the assessment and the stage records an error instead
of producing one. -/
theorem confidence_score_negative_counterexample :
    confidence_score_of (some ⟨1, [], -1, -1⟩) none [] = -(1/2) ∧
    ¬ (0 ≤ confidence_score_of (some ⟨1, [], -1, -1⟩) none []) ∧
    (assess_confidence_node
        { asset_uri := [], rag_context := some ⟨1, [], -1, -1⟩ }).confidence = none ∧
    (assess_confidence_node
        { asset_uri := [], rag_context := some ⟨1, [], -1, -1⟩ }).errors =
      [confidence_validation_message] := by
  refine ⟨?_, ?_, ?_, ?_⟩ <;>
    norm_num [confidence_score_of, rag_score, feedback_score, agreement_score,
      assess_confidence_node, confidence_validation_message, set_telemetry]

/-- C1 witness: the in-range theorem applied to a concrete state with
positive retrieval signals. -/
theorem assess_confidence_score_in_range_witness :
    0 ≤ confidence_score_of (some ⟨3, [], 9/10, 19/20⟩) (some ⟨3, 3, 17/20, 1⟩)
        [⟨Decision.inScope, Rating.up⟩] ∧
    confidence_score_of (some ⟨3, [], 9/10, 19/20⟩) (some ⟨3, 3, 17/20, 1⟩)
        [⟨Decision.inScope, Rating.up⟩] ≤ 1 ∧
    (assess_confidence_node
        { asset_uri := []
          rag_context := some ⟨3, [], 9/10, 19/20⟩
          feedback_context := some ⟨3, 3, 17/20, 1⟩
          similar_feedback := [⟨Decision.inScope, Rating.up⟩] }).confidence =
      some ⟨confidence_level
          (confidence_score_of (some ⟨3, [], 9/10, 19/20⟩) (some ⟨3, 3, 17/20, 1⟩)
            [⟨Decision.inScope, Rating.up⟩]),
        confidence_score_of (some ⟨3, [], 9/10, 19/20⟩) (some ⟨3, 3, 17/20, 1⟩)
          [⟨Decision.inScope, Rating.up⟩]⟩ :=
  assess_confidence_score_in_range
    { asset_uri := []
      rag_context := some ⟨3, [], 9/10, 19/20⟩
      feedback_context := some ⟨3, 3, 17/20, 1⟩
      similar_feedback := [⟨Decision.inScope, Rating.up⟩] }
    (fun r h => by cases h; norm_num)
    (fun f h => by cases h; norm_num)

/-! ## Frequency weighting and recency boosting -/

lemma cluster_size_pos {l : List FeedbackEntry} {fb : FeedbackEntry}
    (h : fb ∈ l) : 1 ≤ cluster_size l fb := by
  have : fb ∈ l.filter (fun g => decide (cluster_key g = cluster_key fb)) :=
    List.mem_filter.2 ⟨h, by simp⟩
  have hne : l.filter (fun g => decide (cluster_key g = cluster_key fb)) ≠ [] :=
    List.ne_nil_of_mem this
  have := List.length_pos.2 hne
  simpa [cluster_size] using this

/-- C4: the weighting step annotates every retrieved item with weight exactly
`1 + (clusterSize - 1) * frequencyBoostFactor` and a cluster size of at least
one; with any factor a singleton cluster weighs exactly `1`; with the default
factor the weight is non-decreasing in cluster size, and cluster size 3 gives
weight `1.30`. -/
theorem frequency_weighting_spec :
    (∀ (factor : ℚ) (l : List FeedbackEntry),
      ∀ p ∈ with_frequency_weights factor l,
        p.2.1 = 1 + ((p.2.2 : ℚ) - 1) * factor ∧ 1 ≤ p.2.2) ∧
    (∀ factor : ℚ, frequency_weight factor 1 = 1) ∧
    (∀ n m : ℕ, n ≤ m →
      frequency_weight settings.frequency_boost_factor n ≤
        frequency_weight settings.frequency_boost_factor m) ∧
    frequency_weight settings.frequency_boost_factor 3 = 13/10 := by
  refine ⟨?_, ?_, ?_, ?_⟩
  · intro factor l p hp
    simp only [with_frequency_weights, List.mem_map] at hp
    obtain ⟨fb, hfb, rfl⟩ := hp
    exact ⟨rfl, cluster_size_pos hfb⟩
  · intro factor; norm_num [frequency_weight]
  · intro n m hnm
    have hc : (n : ℚ) ≤ (m : ℚ) := by exact_mod_cast hnm
    have hfac : (0:ℚ) ≤ settings.frequency_boost_factor := by
      norm_num [settings.frequency_boost_factor]
    simp only [frequency_weight]
    nlinarith
  · norm_num [frequency_weight, settings.frequency_boost_factor]

/-- C4 witness: the weighting theorem applied to a concrete singleton
retrieval and to concrete cluster sizes. -/
theorem frequency_weighting_spec_witness :
    ((⟨"f1", "c1", Decision.inScope, Rating.up, 9/10⟩ : FeedbackEntry),
        frequency_weight (3/20) 1, 1) ∈
      with_frequency_weights (3/20)
        [⟨"f1", "c1", Decision.inScope, Rating.up, 9/10⟩] ∧
    ((((⟨"f1", "c1", Decision.inScope, Rating.up, 9/10⟩ : FeedbackEntry),
        frequency_weight (3/20) 1, 1) : FeedbackEntry × ℚ × ℕ).2.1 =
      1 + ((1 : ℚ) - 1) * (3/20)) ∧
    frequency_weight settings.frequency_boost_factor 1 ≤
      frequency_weight settings.frequency_boost_factor 3 := by
  have hmem : ((⟨"f1", "c1", Decision.inScope, Rating.up, 9/10⟩ : FeedbackEntry),
      frequency_weight (3/20) 1, 1) ∈
        with_frequency_weights (3/20)
          [⟨"f1", "c1", Decision.inScope, Rating.up, 9/10⟩] := by
    simp [with_frequency_weights, cluster_size]
  refine ⟨hmem, (frequency_weighting_spec.1 (3/20) _ _ hmem).1,
    frequency_weighting_spec.2.2.1 1 3 (by norm_num)⟩

/-- C5 (amended): the recency boost equals
`max(0, recencyWeight * (1 - ageInDays/365))`; with the default weight it is
non-negative for every age, `0.1` at age `0`, strictly decreasing on ages
below 365 days, and `0` at every age of at least 365 days.  (The unamended
claim, strict decrease at every age, is refuted by
`recency_boost_constant_past_year_counterexample`.) -/
theorem recency_boost_spec :
    (∀ d : ℤ, 0 ≤ recency_boost settings.recency_weight d) ∧
    recency_boost settings.recency_weight 0 = 1/10 ∧
    (∀ d₁ d₂ : ℤ, d₁ < d₂ → d₁ < 365 →
      recency_boost settings.recency_weight d₂ < recency_boost settings.recency_weight d₁) ∧
    (∀ d : ℤ, 365 ≤ d → recency_boost settings.recency_weight d = 0) := by
  refine ⟨?_, ?_, ?_, ?_⟩
  · intro d; exact le_max_left _ _
  · norm_num [recency_boost, settings.recency_weight]
  · intro d₁ d₂ h12 h365
    have hc12 : (d₁ : ℚ) < (d₂ : ℚ) := by exact_mod_cast h12
    have hc365 : (d₁ : ℚ) < 365 := by exact_mod_cast h365
    have hpos : 0 < settings.recency_weight * (1 - (d₁ : ℚ) / 365) := by
      have : (d₁ : ℚ) / 365 < 1 := by
        rw [div_lt_one (by norm_num)]
        exact hc365
      norm_num [settings.recency_weight]
      linarith
    have hlt : settings.recency_weight * (1 - (d₂ : ℚ) / 365) <
        settings.recency_weight * (1 - (d₁ : ℚ) / 365) := by
      have hdiv : (d₁ : ℚ) / 365 < (d₂ : ℚ) / 365 := by gcongr
      norm_num [settings.recency_weight]
      linarith
    have h1 : recency_boost settings.recency_weight d₁ =
        settings.recency_weight * (1 - (d₁ : ℚ) / 365) :=
      max_eq_right hpos.le
    rw [recency_boost, h1]
    exact max_lt hpos hlt
  · intro d hd
    have hc : (365 : ℚ) ≤ (d : ℚ) := by exact_mod_cast hd
    have : settings.recency_weight * (1 - (d : ℚ) / 365) ≤ 0 := by
      have : (1 : ℚ) ≤ (d : ℚ) / 365 := by
        rw [le_div_iff₀ (by norm_num : (0:ℚ) < 365)]
        linarith
      norm_num [settings.recency_weight]
      linarith
    exact max_eq_left this

/-- C5 counterexample: ages 400 and 500 both get boost `0`, so the boost is
not strictly decreasing with age. -/
theorem recency_boost_constant_past_year_counterexample :
    (400 : ℤ) < 500 ∧
    recency_boost settings.recency_weight 400 = 0 ∧
    recency_boost settings.recency_weight 500 = 0 ∧
    ¬ recency_boost settings.recency_weight 500 <
        recency_boost settings.recency_weight 400 := by
  have h400 : recency_boost settings.recency_weight 400 = 0 := by
    rw [recency_boost]
    apply max_eq_left
    norm_num [settings.recency_weight]
  have h500 : recency_boost settings.recency_weight 500 = 0 := by
    rw [recency_boost]
    apply max_eq_left
    norm_num [settings.recency_weight]
  exact ⟨by norm_num, h400, h500, by rw [h400, h500]; exact lt_irrefl 0⟩

/-- C5 witness: the amended theorem applied at ages 0, 100 and 365. -/
theorem recency_boost_spec_witness :
    recency_boost settings.recency_weight 100 < recency_boost settings.recency_weight 0 ∧
    recency_boost settings.recency_weight 0 = 1/10 ∧
    recency_boost settings.recency_weight 365 = 0 ∧
    0 ≤ recency_boost settings.recency_weight 500 :=
  ⟨recency_boost_spec.2.2.1 0 100 (by norm_num) (by norm_num),
   recency_boost_spec.2.1,
   recency_boost_spec.2.2.2 365 (by norm_num),
   recency_boost_spec.1 500⟩

/-! ## Feedback agreement classification -/

lemma distinct_pos_ne_nil {l : List FeedbackItem}
    (h : distinct_decision_count l ≠ 0) : l ≠ [] := by
  intro e
  subst e
  simp [distinct_decision_count] at h

/-- C7: the agreement term is `0.2` for exactly one distinct prior decision,
`0.1` for exactly two, `0` for three or more, and `0` with no retrieved
feedback; whenever the thumbs-down ratio exceeds one half the term is halved
(`0.2` becomes `0.1`, `0.1` becomes `0.05`). -/
theorem agreement_score_classification :
    agreement_score [] = 0 ∧
    (∀ l : List FeedbackItem, distinct_decision_count l = 1 →
      ((down_count l : ℚ) / (l.length : ℚ) ≤ 1/2 → agreement_score l = 1/5) ∧
      (1/2 < (down_count l : ℚ) / (l.length : ℚ) → agreement_score l = 1/10)) ∧
    (∀ l : List FeedbackItem, distinct_decision_count l = 2 →
      ((down_count l : ℚ) / (l.length : ℚ) ≤ 1/2 → agreement_score l = 1/10) ∧
      (1/2 < (down_count l : ℚ) / (l.length : ℚ) → agreement_score l = 1/20)) ∧
    (∀ l : List FeedbackItem, 3 ≤ distinct_decision_count l →
      agreement_score l = 0) := by
  refine ⟨by norm_num [agreement_score], ?_, ?_, ?_⟩
  · intro l hd
    have hne : l ≠ [] := distinct_pos_ne_nil (by omega)
    constructor
    · intro hr
      rw [agreement_score, if_neg hne]
      simp only [hd]
      norm_num [if_neg (not_lt.2 hr)]
    · intro hr
      rw [agreement_score, if_neg hne]
      simp only [hd]
      norm_num [if_pos hr]
  · intro l hd
    have hne : l ≠ [] := distinct_pos_ne_nil (by omega)
    constructor
    · intro hr
      rw [agreement_score, if_neg hne]
      simp only [hd]
      norm_num [if_neg (not_lt.2 hr)]
    · intro hr
      rw [agreement_score, if_neg hne]
      simp only [hd]
      norm_num [if_pos hr]
  · intro l hd
    have hne : l ≠ [] := distinct_pos_ne_nil (by omega)
    rw [agreement_score, if_neg hne]
    have h1 : distinct_decision_count l ≠ 1 := by omega
    have h2 : distinct_decision_count l ≠ 2 := by omega
    simp only [if_neg h1, if_neg h2]
    split <;> norm_num

/-- C7 witness: three aligned feedback items of which two are rated down
give agreement `0.1` (the aligned `0.2` halved). -/
theorem agreement_score_classification_witness :
    agreement_score
      [⟨Decision.inScope, Rating.down⟩, ⟨Decision.inScope, Rating.down⟩,
        ⟨Decision.inScope, Rating.up⟩] = 1/10 :=
  (agreement_score_classification.2.1
      [⟨Decision.inScope, Rating.down⟩, ⟨Decision.inScope, Rating.down⟩,
        ⟨Decision.inScope, Rating.up⟩]
      (by decide)).2
    (by
      have h : down_count
          [⟨Decision.inScope, Rating.down⟩, ⟨Decision.inScope, Rating.down⟩,
            ⟨Decision.inScope, Rating.up⟩] = 2 := by decide
      rw [h]
      norm_num)

/-! ## Fail-soft pipeline behaviour -/

lemma parse_asset_node_errors_monotone : errors_monotone parse_asset_node := by
  intro s
  cases h : AssetURI.from_uri s.asset_uri with
  | ok a => exact ⟨[], by simp [parse_asset_node, h]⟩
  | error m =>
      exact ⟨["Asset parsing error: " ++ m], by simp [parse_asset_node, h]⟩

lemma assess_confidence_node_errors_monotone : errors_monotone assess_confidence_node := by
  intro s
  by_cases h : 0 ≤ confidence_score_of s.rag_context s.feedback_context s.similar_feedback ∧
      confidence_score_of s.rag_context s.feedback_context s.similar_feedback ≤ 1
  · exact ⟨[], by simp [assess_confidence_node, if_pos h]⟩
  · exact ⟨[confidence_validation_message], by simp [assess_confidence_node, if_neg h]⟩

lemma mem_errors_run_stages (stages : List (AgentState → AgentState))
    (hmono : ∀ f ∈ stages, errors_monotone f) (s : AgentState) (m : String)
    (hm : m ∈ s.errors) : m ∈ (run_stages stages s).errors := by
  induction stages generalizing s with
  | nil => simpa [run_stages] using hm
  | cons f fs ih =>
      obtain ⟨tail, ht⟩ := hmono f (List.mem_cons_self f fs) s
      have hfs : m ∈ (f s).errors := by
        rw [ht]
        exact List.mem_append_left _ hm
      simpa [run_stages] using
        ih (fun g hg => hmono g (List.mem_cons_of_mem f hg)) (f s) hfs

/-- C8: an asset identifier that lacks the `asset://` scheme marker, or whose
remainder after the marker does not consist of exactly three dot-separated
segments, makes `AssetURI.from_uri` return a parse error (never a default
value); `parse_asset_node` appends the error message to the run state's error
list, and the message survives to the terminal state of any remaining stage
sequence that follows the fail-soft (append-only) error policy. -/
theorem parse_error_recorded_and_pipeline_continues
    (uri : List Char) (s : AgentState) (stages : List (AgentState → AgentState))
    (hs : s.asset_uri = uri)
    (hbad : starts_with scheme uri = false ∨
      (split_on_dot (uri.drop scheme.length)).length ≠ 3)
    (hmono : ∀ f ∈ stages, errors_monotone f) :
    ∃ m, AssetURI.from_uri uri = Except.error m ∧
      (parse_asset_node s).errors = s.errors ++ ["Asset parsing error: " ++ m] ∧
      ("Asset parsing error: " ++ m) ∈ (run_stages stages (parse_asset_node s)).errors := by
  subst hs
  have herr : ∃ m, AssetURI.from_uri s.asset_uri = Except.error m := by
    rcases hbad with hsw | h3
    · exact ⟨_, from_uri_error_of_no_scheme s.asset_uri hsw⟩
    · cases hsw : starts_with scheme s.asset_uri with
      | true => exact ⟨_, from_uri_error_of_bad_segments s.asset_uri hsw h3⟩
      | false => exact ⟨_, from_uri_error_of_no_scheme s.asset_uri hsw⟩
  obtain ⟨m, hm⟩ := herr
  refine ⟨m, hm, ?_, ?_⟩
  · simp [parse_asset_node, hm]
  · apply mem_errors_run_stages stages hmono
    simp [parse_asset_node, hm]

/-- C8 witness: the identifier `bad-uri` (no scheme marker) applied to a
fresh run state, with the confidence stage as a remaining stage. -/
theorem parse_error_recorded_witness :
    ∃ m, AssetURI.from_uri "bad-uri".toList = Except.error m ∧
      (parse_asset_node { asset_uri := "bad-uri".toList }).errors =
        ([] : List String) ++ ["Asset parsing error: " ++ m] ∧
      ("Asset parsing error: " ++ m) ∈
        (run_stages [assess_confidence_node]
          (parse_asset_node { asset_uri := "bad-uri".toList })).errors :=
  parse_error_recorded_and_pipeline_continues "bad-uri".toList
    { asset_uri := "bad-uri".toList } [assess_confidence_node] rfl
    (Or.inl (by decide))
    (by
      intro f hf
      rw [List.mem_singleton] at hf
      subst hf
      exact assess_confidence_node_errors_monotone)

/-- C9 (amended): a stage whose body raises appends a human-readable message
to the shared error list and records an error entry in its own telemetry
slot; all other run-state fields are unmodified, and the engine's fold keeps
executing the remaining stages.  Shown for the two fallible modelled stages:
`parse_asset_node` (raising on an invalid URI) and `assess_confidence_node`
(raising on an out-of-range score).  (The unamended claim, that the state is
modified in no way other than the error-list append, is refuted by
`stage_failure_modifies_telemetry_counterexample`.) -/
theorem stage_exception_fail_soft :
    (∀ (s : AgentState) (m : String), AssetURI.from_uri s.asset_uri = Except.error m →
      (parse_asset_node s).errors = s.errors ++ ["Asset parsing error: " ++ m] ∧
      (parse_asset_node s).telemetry_data =
        set_telemetry s.telemetry_data "parse_asset" (some m) ∧
      (parse_asset_node s).asset_uri = s.asset_uri ∧
      (parse_asset_node s).asset = s.asset ∧
      (parse_asset_node s).rag_context = s.rag_context ∧
      (parse_asset_node s).feedback_context = s.feedback_context ∧
      (parse_asset_node s).similar_feedback = s.similar_feedback ∧
      (parse_asset_node s).confidence = s.confidence) ∧
    (∀ s : AgentState,
      ¬ (0 ≤ confidence_score_of s.rag_context s.feedback_context s.similar_feedback ∧
          confidence_score_of s.rag_context s.feedback_context s.similar_feedback ≤ 1) →
      (assess_confidence_node s).errors = s.errors ++ [confidence_validation_message] ∧
      (assess_confidence_node s).telemetry_data =
        set_telemetry s.telemetry_data "confidence_assessment"
          (some confidence_validation_message) ∧
      (assess_confidence_node s).asset_uri = s.asset_uri ∧
      (assess_confidence_node s).asset = s.asset ∧
      (assess_confidence_node s).rag_context = s.rag_context ∧
      (assess_confidence_node s).feedback_context = s.feedback_context ∧
      (assess_confidence_node s).similar_feedback = s.similar_feedback ∧
      (assess_confidence_node s).confidence = s.confidence) ∧
    (∀ (f : AgentState → AgentState) (stages : List (AgentState → AgentState))
        (s : AgentState),
      run_stages (f :: stages) s = run_stages stages (f s)) := by
  refine ⟨?_, ?_, ?_⟩
  · intro s m hm
    simp [parse_asset_node, hm]
  · intro s h
    simp [assess_confidence_node, if_neg h]
  · intro f stages s
    simp [run_stages]

/-- C9 counterexample: on the invalid identifier `bad-uri` the parse stage
does append its message to the error list, but the resulting state is not the
input state with only the error list extended — the stage also records an
error telemetry entry. -/
theorem stage_failure_modifies_telemetry_counterexample :
    (parse_asset_node { asset_uri := "bad-uri".toList }).errors =
      ["Asset parsing error: Invalid asset URI format: bad-uri. Expected asset://type.descriptor.domain"] ∧
    parse_asset_node { asset_uri := "bad-uri".toList } ≠
      { ({ asset_uri := "bad-uri".toList } : AgentState) with
        errors :=
          ["Asset parsing error: Invalid asset URI format: bad-uri. Expected asset://type.descriptor.domain"] } := by
  constructor
  · decide
  · decide

/-- C9 witness: the fail-soft theorem applied to the concrete invalid
identifier `bad-uri` and a concrete following stage. -/
theorem stage_exception_fail_soft_witness :
    (parse_asset_node { asset_uri := "bad-uri".toList }).confidence =
      ({ asset_uri := "bad-uri".toList } : AgentState).confidence ∧
    (parse_asset_node { asset_uri := "bad-uri".toList }).telemetry_data =
      set_telemetry ({ asset_uri := "bad-uri".toList } : AgentState).telemetry_data
        "parse_asset"
        (some ("Invalid asset URI format: bad-uri. Expected asset://type.descriptor.domain")) ∧
    run_stages [assess_confidence_node] (parse_asset_node { asset_uri := "bad-uri".toList }) =
      run_stages [] (assess_confidence_node (parse_asset_node { asset_uri := "bad-uri".toList })) := by
  refine ⟨?_, ?_, ?_⟩
  · exact (stage_exception_fail_soft.1 { asset_uri := "bad-uri".toList }
      ("Invalid asset URI format: bad-uri. Expected asset://type.descriptor.domain")
      (by rfl)).2.2.2.2.2.2.2
  · exact (stage_exception_fail_soft.1 { asset_uri := "bad-uri".toList }
      ("Invalid asset URI format: bad-uri. Expected asset://type.descriptor.domain")
      (by rfl)).2.1
  · exact stage_exception_fail_soft.2.2 assess_confidence_node []
      (parse_asset_node { asset_uri := "bad-uri".toList })

/-! ## Properties of cosine similarity -/

lemma dot_self_nonneg (v : List ℝ) : 0 ≤ dot v v := by
  induction v with
  | nil => simp [dot]
  | cons a t ih =>
      have : dot (a :: t) (a :: t) = a * a + dot t t := by
        simp [dot, List.zipWith_cons_cons]
      rw [this]
      nlinarith

lemma dot_comm (v w : List ℝ) : dot v w = dot w v := by
  unfold dot
  rw [List.zipWith_comm_of_comm (fun a b => a * b) mul_comm]

lemma inmem_cos_eq_cos (v w : List ℝ) :
    inmem_cosine_similarity v w = cosine_similarity v w := rfl

/-- C6 (amended): for every vector of nonzero norm, self-similarity is
exactly `1` in both the embedding-service and the in-memory implementation,
and similarity is symmetric for all vectors.  (The unamended claim, asserting
self-similarity `1` for all vectors, is refuted on the zero vector by
`cosine_similarity_zero_self_counterexample`.) -/
theorem cosine_similarity_self_one_and_symm :
    (∀ v : List ℝ, vec_norm v ≠ 0 →
      cosine_similarity v v = 1 ∧ inmem_cosine_similarity v v = 1) ∧
    (∀ v w : List ℝ, cosine_similarity v w = cosine_similarity w v ∧
      inmem_cosine_similarity v w = inmem_cosine_similarity w v) := by
  have hself : ∀ v : List ℝ, vec_norm v ≠ 0 → cosine_similarity v v = 1 := by
    intro v hv
    have hdot : dot v v ≠ 0 := by
      intro h0
      apply hv
      rw [vec_norm, h0, Real.sqrt_zero]
    rw [cosine_similarity, if_neg (by tauto)]
    rw [vec_norm, Real.mul_self_sqrt (dot_self_nonneg v)]
    exact div_self hdot
  have hsymm : ∀ v w : List ℝ, cosine_similarity v w = cosine_similarity w v := by
    intro v w
    rw [cosine_similarity, cosine_similarity, dot_comm, mul_comm]
    exact if_congr or_comm rfl rfl
  exact ⟨fun v hv => ⟨hself v hv, hself v hv⟩,
    fun v w => ⟨hsymm v w, hsymm v w⟩⟩

/-- C6 counterexample: on the zero vector the guard fires and the
self-similarity is `0`, not `1`. -/
theorem cosine_similarity_zero_self_counterexample :
    cosine_similarity [(0:ℝ)] [(0:ℝ)] = 0 ∧ (0 : ℝ) ≠ 1 := by
  have h0 : vec_norm [(0:ℝ)] = 0 := by
    have : dot [(0:ℝ)] [(0:ℝ)] = 0 := by norm_num [dot]
    rw [vec_norm, this, Real.sqrt_zero]
  exact ⟨by rw [cosine_similarity, if_pos (Or.inl h0)], by norm_num⟩

/-- C6 witness: the amended theorem applied at the unit vector `[1]`. -/
theorem cosine_similarity_self_one_witness :
    vec_norm [(1:ℝ)] ≠ 0 ∧
    cosine_similarity [(1:ℝ)] [(1:ℝ)] = 1 ∧
    inmem_cosine_similarity [(1:ℝ)] [(1:ℝ)] = 1 ∧
    cosine_similarity [(1:ℝ)] [(0:ℝ)] = cosine_similarity [(0:ℝ)] [(1:ℝ)] := by
  have h1 : vec_norm [(1:ℝ)] ≠ 0 := by
    have : dot [(1:ℝ)] [(1:ℝ)] = 1 := by norm_num [dot]
    rw [vec_norm, this, Real.sqrt_one]
    norm_num
  exact ⟨h1, (cosine_similarity_self_one_and_symm.1 [(1:ℝ)] h1).1,
    (cosine_similarity_self_one_and_symm.1 [(1:ℝ)] h1).2,
    (cosine_similarity_self_one_and_symm.2 [(1:ℝ)] [(0:ℝ)]).1⟩

/-- C10: both cosine-similarity implementations guard the zero-denominator
case: whenever either input has zero norm they return `0` instead of dividing
by zero.  (In the embedding every operation is total, so no search or ranking
operation can raise; this theorem records the guarded value.) -/
theorem cosine_similarity_zero_norm_guard (v w : List ℝ)
    (h : vec_norm v = 0 ∨ vec_norm w = 0) :
    cosine_similarity v w = 0 ∧ inmem_cosine_similarity v w = 0 :=
  ⟨by rw [cosine_similarity, if_pos h], by rw [inmem_cosine_similarity, if_pos h]⟩

/-- C10 witness: the guard theorem applied to the degenerate embedding `[0]`
against the unit vector `[1]`. -/
theorem cosine_similarity_zero_norm_guard_witness :
    cosine_similarity [(0:ℝ)] [(1:ℝ)] = 0 ∧
    inmem_cosine_similarity [(0:ℝ)] [(1:ℝ)] = 0 :=
  cosine_similarity_zero_norm_guard [(0:ℝ)] [(1:ℝ)]
    (Or.inl (by
      have : dot [(0:ℝ)] [(0:ℝ)] = 0 := by norm_num [dot]
      rw [vec_norm, this, Real.sqrt_zero]))

/-! ## Properties of the stable descending sort -/

section StableSortLemmas

variable {α : Type} {key : α → ℝ}

lemma insert_desc_perm (x : α) (l : List α) :
    List.Perm (insert_desc key x l) (x :: l) := by
  induction l with
  | nil => exact List.Perm.refl _
  | cons y ys ih =>
      rw [insert_desc]
      split
      · exact (List.Perm.cons y ih).trans (List.Perm.swap x y ys)
      · exact List.Perm.refl _

lemma sort_desc_perm (l : List α) : List.Perm (sort_desc key l) l := by
  induction l with
  | nil => exact List.Perm.refl _
  | cons x xs ih =>
      rw [sort_desc]
      exact (insert_desc_perm x (sort_desc key xs)).trans (List.Perm.cons x ih)

lemma mem_insert_desc {x a : α} {l : List α} :
    a ∈ insert_desc key x l ↔ a = x ∨ a ∈ l := by
  rw [(insert_desc_perm x l).mem_iff]
  simp

lemma insert_desc_pairwise {x : α} {l : List α}
    (hl : l.Pairwise (fun a b => key b ≤ key a)) :
    (insert_desc key x l).Pairwise (fun a b => key b ≤ key a) := by
  induction l with
  | nil => simp [insert_desc]
  | cons y ys ih =>
      rw [List.pairwise_cons] at hl
      rw [insert_desc]
      split
      · next hxy =>
          rw [List.pairwise_cons]
          refine ⟨?_, ih hl.2⟩
          intro b hb
          rcases mem_insert_desc.1 hb with rfl | hb2
          · exact le_of_lt hxy
          · exact hl.1 b hb2
      · next hxy =>
          rw [List.pairwise_cons]
          refine ⟨?_, List.pairwise_cons.2 hl⟩
          intro b hb
          rcases List.mem_cons.1 hb with rfl | hb2
          · exact not_lt.1 hxy
          · exact le_trans (hl.1 b hb2) (not_lt.1 hxy)

lemma sort_desc_sorted (l : List α) :
    (sort_desc key l).Pairwise (fun a b => key b ≤ key a) := by
  induction l with
  | nil => simp [sort_desc]
  | cons x xs ih =>
      rw [sort_desc]
      exact insert_desc_pairwise ih

lemma sublist_insert_desc (x : α) (l : List α) : List.Sublist l (insert_desc key x l) := by
  induction l with
  | nil => simp [insert_desc]
  | cons y ys ih =>
      rw [insert_desc]
      split
      · exact List.Sublist.cons₂ y ih
      · exact List.sublist_cons_self x (y :: ys)

lemma cons_sublist_insert_desc {x : α} {c l : List α} (hc : List.Sublist c l)
    (hx : ∀ b ∈ c, key b ≤ key x) : List.Sublist (x :: c) (insert_desc key x l) := by
  induction l generalizing c with
  | nil =>
      have : c = [] := List.sublist_nil.1 hc
      subst this
      simp [insert_desc]
  | cons y ys ih =>
      rw [insert_desc]
      split
      · next hxy =>
          cases hc with
          | cons _ h => exact List.Sublist.cons y (ih h hx)
          | cons₂ _ h =>
              exact absurd hxy (not_lt.2 (hx y (List.mem_cons_self y _)))
      · next hxy =>
          exact List.Sublist.cons₂ x hc

/-- Stability: a subsequence of the input whose keys are already
non-increasing is still a subsequence of the sorted output. -/
lemma sort_desc_stable {c l : List α} (hc : List.Sublist c l)
    (hp : c.Pairwise (fun a b => key b ≤ key a)) : List.Sublist c (sort_desc key l) := by
  induction l generalizing c with
  | nil =>
      have : c = [] := List.sublist_nil.1 hc
      subst this
      simp
  | cons x xs ih =>
      rw [sort_desc]
      cases hc with
      | cons _ h => exact (ih h hp).trans (sublist_insert_desc x _)
      | cons₂ _ h =>
          rw [List.pairwise_cons] at hp
          exact cons_sublist_insert_desc (ih h hp.2) hp.1

end StableSortLemmas

lemma pair_sublist_or {α : Type} {x y : α} {l : List α}
    (hx : x ∈ l) (hy : y ∈ l) (hne : x ≠ y) :
    List.Sublist [x, y] l ∨ List.Sublist [y, x] l := by
  induction l with
  | nil => cases hx
  | cons a t ih =>
      rcases List.mem_cons.1 hx with rfl | hx2
      · have hy2 : y ∈ t := by
          rcases List.mem_cons.1 hy with rfl | h
          · exact absurd rfl hne
          · exact h
        exact Or.inl (List.Sublist.cons₂ x (List.singleton_sublist.2 hy2))
      · rcases List.mem_cons.1 hy with rfl | hy2
        · exact Or.inr (List.Sublist.cons₂ y (List.singleton_sublist.2 hx2))
        · rcases ih hx2 hy2 with h | h
          · exact Or.inl (h.cons a)
          · exact Or.inr (h.cons a)

lemma pair_sublist_antisymm {α : Type} {x y : α} {l : List α} (hl : l.Nodup)
    (h1 : List.Sublist [x, y] l) (h2 : List.Sublist [y, x] l) : False := by
  induction l with
  | nil => simp at h1
  | cons a t ih =>
      have hat : a ∉ t := (List.nodup_cons.1 hl).1
      have ht : t.Nodup := (List.nodup_cons.1 hl).2
      cases h1 with
      | cons _ h1a =>
          cases h2 with
          | cons _ h2a => exact ih ht h1a h2a
          | cons₂ _ h2a => exact hat (h1a.subset (by simp))
      | cons₂ _ h1a =>
          cases h2 with
          | cons _ h2a => exact hat (h2a.subset (by simp))
          | cons₂ _ h2a => exact hat (h1a.subset (by simp))

/-! ## Search: result bound, ordering, tie-breaking, threshold -/

lemma search_candidates_sublist_scored (store : List VectorDocument) (q : List ℝ)
    (filt : Option (List (String × String))) (thr : Option ℝ) :
    List.Sublist (search_candidates store q filt thr)
      ((store.filter (fun d => passes_metadata_filter filt d.metadata)).map
        (fun d => (d, inmem_cosine_similarity q d.embedding))) :=
  List.filter_sublist _

lemma search_candidates_ids_nodup (store : List VectorDocument) (q : List ℝ)
    (filt : Option (List (String × String))) (thr : Option ℝ)
    (hid : (store.map (fun d => d.id)).Nodup) :
    ((search_candidates store q filt thr).map (fun p => p.1.id)).Nodup := by
  have h1 : List.Sublist
      ((store.filter (fun d => passes_metadata_filter filt d.metadata)).map (fun d => d.id))
      (store.map (fun d => d.id)) :=
    (List.filter_sublist store).map _
  have h2 : ((store.filter (fun d => passes_metadata_filter filt d.metadata)).map
      (fun d => (d, inmem_cosine_similarity q d.embedding))).map (fun p => p.1.id) =
      (store.filter (fun d => passes_metadata_filter filt d.metadata)).map
        (fun d => d.id) := by
    simp [List.map_map, Function.comp]
  have h3 : List.Sublist
      ((search_candidates store q filt thr).map (fun p => p.1.id))
      ((store.filter (fun d => passes_metadata_filter filt d.metadata)).map
        (fun d => d.id)) := by
    rw [← h2]
    exact (search_candidates_sublist_scored store q filt thr).map _
  exact h3.nodup (h1.nodup hid)

lemma search_candidates_nodup (store : List VectorDocument) (q : List ℝ)
    (filt : Option (List (String × String))) (thr : Option ℝ)
    (hid : (store.map (fun d => d.id)).Nodup) :
    (search_candidates store q filt thr).Nodup :=
  List.Nodup.of_map _ (search_candidates_ids_nodup store q filt thr hid)

lemma mem_search {store : List VectorDocument} {q : List ℝ} {k : ℕ}
    {filt : Option (List (String × String))} {thr : Option ℝ}
    {r : SimilarityResult} (hr : r ∈ search store q k filt thr) :
    ∃ p ∈ search_candidates store q filt thr, r = to_result p := by
  rw [search] at hr
  obtain ⟨p, hp, rfl⟩ := List.mem_map.1 hr
  have hp2 : p ∈ sort_desc (fun p => p.2) (search_candidates store q filt thr) :=
    (List.take_sublist k _).subset hp
  exact ⟨p, (sort_desc_perm _).subset hp2, rfl⟩

/-- C2: for every stored document set with distinct document ids, every query
and every `k`, `search` returns at most `k` results, sorted non-increasing by
score, and any two tied results appear in the insertion order of their
documents in the store (the sort is stable; nothing depends on the ids beyond
their distinctness). -/
theorem search_bounded_sorted_stable
    (store : List VectorDocument) (q : List ℝ) (k : ℕ)
    (filt : Option (List (String × String))) (thr : Option ℝ)
    (hid : (store.map (fun d => d.id)).Nodup) :
    (search store q k filt thr).length ≤ k ∧
    (search store q k filt thr).Pairwise (fun r1 r2 => r2.score ≤ r1.score) ∧
    (∀ r1 r2 : SimilarityResult,
      List.Sublist [r1, r2] (search store q k filt thr) → r1.score = r2.score →
      ∃ d1 d2 : VectorDocument, d1.id = r1.id ∧ d2.id = r2.id ∧
        List.Sublist [d1, d2] store) := by
  have hnodup : (search_candidates store q filt thr).Nodup :=
    search_candidates_nodup store q filt thr hid
  have hsorted_nodup : (sort_desc (fun p => p.2) (search_candidates store q filt thr)).Nodup :=
    ((sort_desc_perm _).nodup_iff).2 hnodup
  refine ⟨?_, ?_, ?_⟩
  · rw [search, List.length_map, List.length_take]
    exact min_le_left _ _
  · rw [search, List.pairwise_map]
    exact List.Pairwise.sublist (List.take_sublist k _) (sort_desc_sorted _)
  · intro r1 r2 hsub heq
    rw [search] at hsub
    obtain ⟨c0, hc0sub, hc0eq⟩ := List.sublist_map_iff.1 hsub
    rcases c0 with _ | ⟨p1, _ | ⟨p2, _ | ⟨p3, t⟩⟩⟩ <;> simp at hc0eq
    obtain ⟨hr1, hr2⟩ := hc0eq
    subst hr1
    subst hr2
    have hpair : List.Sublist [p1, p2]
        (sort_desc (fun p => p.2) (search_candidates store q filt thr)) :=
      hc0sub.trans (List.take_sublist k _)
    have hppnd : ([p1, p2] : List (VectorDocument × ℝ)).Nodup :=
      hpair.nodup hsorted_nodup
    have hne : p1 ≠ p2 := by
      rw [List.nodup_cons] at hppnd
      intro e
      exact hppnd.1 (by rw [e]; exact List.mem_singleton.2 rfl)
    have hp1mem : p1 ∈ search_candidates store q filt thr :=
      (sort_desc_perm _).subset (hpair.subset (by simp))
    have hp2mem : p2 ∈ search_candidates store q filt thr :=
      (sort_desc_perm _).subset (hpair.subset (by simp))
    have hscore : p1.2 = p2.2 := heq
    rcases pair_sublist_or hp1mem hp2mem hne with hio | hoi
    · have h1 : List.Sublist [p1, p2]
          ((store.filter (fun d => passes_metadata_filter filt d.metadata)).map
            (fun d => (d, inmem_cosine_similarity q d.embedding))) :=
        hio.trans (search_candidates_sublist_scored store q filt thr)
      obtain ⟨c1, hc1sub, hc1eq⟩ := List.sublist_map_iff.1 h1
      rcases c1 with _ | ⟨d1, _ | ⟨d2, _ | ⟨d3, t1⟩⟩⟩ <;> simp at hc1eq
      obtain ⟨hd1, hd2⟩ := hc1eq
      subst hd1
      subst hd2
      exact ⟨d1, d2, rfl, rfl, hc1sub.trans (List.filter_sublist store)⟩
    · have hkey : ([p2, p1] : List (VectorDocument × ℝ)).Pairwise
          (fun a b => b.2 ≤ a.2) := by
        rw [List.pairwise_cons]
        refine ⟨?_, by simp⟩
        intro b hb
        rw [List.mem_singleton] at hb
        subst hb
        exact le_of_eq hscore
      have hrev : List.Sublist [p2, p1]
          (sort_desc (fun p => p.2) (search_candidates store q filt thr)) :=
        sort_desc_stable hoi hkey
      exact (pair_sublist_antisymm hsorted_nodup hpair hrev).elim

/-- C2 witness: the theorem applied to a concrete two-document store with
tied scores. -/
theorem search_bounded_sorted_stable_witness :
    (search [⟨"a", "ta", [1], []⟩, ⟨"b", "tb", [1], []⟩] [1] 2 none none).length ≤ 2 ∧
    (search [⟨"a", "ta", [1], []⟩, ⟨"b", "tb", [1], []⟩] [1] 2 none none).Pairwise
      (fun r1 r2 => r2.score ≤ r1.score) ∧
    (∀ r1 r2 : SimilarityResult,
      List.Sublist [r1, r2]
        (search [⟨"a", "ta", [1], []⟩, ⟨"b", "tb", [1], []⟩] [1] 2 none none) →
      r1.score = r2.score →
      ∃ d1 d2 : VectorDocument, d1.id = r1.id ∧ d2.id = r2.id ∧
        List.Sublist [d1, d2] [⟨"a", "ta", [1], []⟩, ⟨"b", "tb", [1], []⟩]) :=
  search_bounded_sorted_stable [⟨"a", "ta", [1], []⟩, ⟨"b", "tb", [1], []⟩]
    [1] 2 none none (by simp)

/-- C3 (amended): when a nonzero `scoreThreshold` is given, no returned
result has a score below it, and `topK` bounds the result count after the
filtering.  (The unamended claim, covering a threshold of `0.0` as well, is
refuted by `search_zero_threshold_counterexample`: the Python guard
`if score_threshold and ...` treats `0.0` as absent.) -/
theorem search_threshold_filters
    (store : List VectorDocument) (q : List ℝ) (k : ℕ)
    (filt : Option (List (String × String))) (c : ℝ) (hc : c ≠ 0) :
    (∀ r ∈ search store q k filt (some c), c ≤ r.score) ∧
    (search store q k filt (some c)).length ≤ k := by
  constructor
  · intro r hr
    obtain ⟨p, hp, rfl⟩ := mem_search hr
    rw [search_candidates, List.mem_filter] at hp
    have hkept := hp.2
    simp only [dropped_by_threshold, Bool.not_eq_true', Bool.and_eq_false_iff,
      decide_eq_false_iff_not, not_not] at hkept
    rcases hkept with h0 | hlt
    · exact absurd h0 hc
    · exact not_lt.1 hlt
  · rw [search, List.length_map, List.length_take]
    exact min_le_left _ _

/-- C3 counterexample: with `scoreThreshold = 0.0` given explicitly, a
document of negative similarity is still returned — the threshold clause is
skipped because `0.0` is falsy in Python. -/
theorem search_zero_threshold_counterexample :
    ∃ r ∈ search [⟨"d1", "t1", [-1], []⟩] [1] 5 none (some 0), r.score < 0 := by
  have hn1 : vec_norm [(1:ℝ)] = 1 := by
    have : dot [(1:ℝ)] [(1:ℝ)] = 1 := by norm_num [dot]
    rw [vec_norm, this, Real.sqrt_one]
  have hn2 : vec_norm [(-1:ℝ)] = 1 := by
    have : dot [(-1:ℝ)] [(-1:ℝ)] = 1 := by norm_num [dot]
    rw [vec_norm, this, Real.sqrt_one]
  have hsim : inmem_cosine_similarity [(1:ℝ)] [(-1:ℝ)] = -1 := by
    rw [inmem_cosine_similarity, if_neg (by rw [hn1, hn2]; norm_num), hn1, hn2]
    norm_num [dot]
  have hdrop : dropped_by_threshold (some (0:ℝ)) (-1) = false := by
    norm_num [dropped_by_threshold]
  have hsearch : search [⟨"d1", "t1", [-1], []⟩] [1] 5 none (some 0) =
      [⟨"d1", "t1", -1, []⟩] := by
    rw [search, search_candidates]
    simp only [List.filter_cons, passes_metadata_filter, List.filter_nil, if_true,
      List.map_cons, List.map_nil, hsim, hdrop, Bool.not_false, sort_desc,
      insert_desc, List.take_cons, List.take_nil, to_result]
    simp [sort_desc, insert_desc, to_result]
  refine ⟨⟨"d1", "t1", -1, []⟩, ?_, by norm_num⟩
  rw [hsearch]
  exact List.mem_singleton.2 rfl

/-- C3 witness: the amended theorem applied to a concrete store and the
nonzero threshold `1/2`. -/
theorem search_threshold_filters_witness :
    (∀ r ∈ search [⟨"d1", "t1", [-1], []⟩] [1] 5 none (some (1/2)),
      (1/2 : ℝ) ≤ r.score) ∧
    (search [⟨"d1", "t1", [-1], []⟩] [1] 5 none (some (1/2))).length ≤ 5 :=
  search_threshold_filters [⟨"d1", "t1", [-1], []⟩] [1] 5 none (1/2) (by norm_num)

end Agent
